import Mathlib

/-!
Shallow embedding of the real-time STT service core (`src/scripts/plugin2.py`):
the `JitterBuffer`, the `ConnectionManager` session registry, the per-session
audio-batching loop of `STTService._process_session_audio`, and the
`handle_client` init handshake configuration step.

Conventions:
* audio payloads are modelled by an arbitrary type `α` (instantiated with `Nat`
  or `List Nat` in concrete statements); byte strings are `List Nat`;
* a Python `deque` is a `List` together with its `maxlen : Option Nat`;
* Python's `sorted(..., key=lambda x: x[0])` is a stable sort by the first
  component, modelled with `List.insertionSort` (stable for a `≤` relation);
* a raised exception is an `Except.error`, returned together with the
  manager state as it is at the raise point.
-/

namespace STT

/-- Python truthiness of an optional string (`bool(x)`): `None` and `""` are
falsy, every other string is truthy. -/
def strTruthy : Option String → Bool
  | none => false
  | some s => decide (s ≠ "")

/-- Stable sort of `(sequence_number, payload)` pairs by sequence number:
the model of `sorted(self.buffer, key=lambda x: x[0])`. -/
def sortBySeq {α : Type} (l : List (Nat × α)) : List (Nat × α) :=
  List.insertionSort (fun x y => x.1 ≤ y.1) l

/-- One `deque.append` honouring the deque's `maxlen`: when the deque is full,
the oldest (leftmost) entries are discarded to make room. A `maxlen` of `none`
is an unbounded deque. -/
def dequeAppend {β : Type} (maxlen : Option Nat) (l : List β) (x : β) : List β :=
  match maxlen with
  | none => l ++ [x]
  | some m => (l ++ [x]).drop ((l ++ [x]).length - m)

/-- State of `JitterBuffer`: the deque of `(seq_num, audio_data)` pairs with its
current `maxlen`, the (unused) `sequence_number` counter, and `expected_seq`. -/
structure JitterBuffer (α : Type) where
  buffer : List (Nat × α)
  maxlen : Option Nat
  sequence_number : Nat
  expected_seq : Nat
deriving DecidableEq, Repr

/-- `JitterBuffer.__init__(max_size)`: empty deque with `maxlen = max_size`
(the source default for `max_size` is 10), counters at 0. -/
def JitterBuffer.init (α : Type) (max_size : Nat) : JitterBuffer α :=
  { buffer := [], maxlen := some max_size, sequence_number := 0, expected_seq := 0 }

/-- The release check at the end of `add_frame`, applied to the rebuilt sorted
buffer: if the buffer is nonempty and its head carries `expected_seq`, pop it,
advance `expected_seq`, and return its payload. The rebuilt deque
(`deque(sorted(...))`) has no `maxlen`. -/
def releaseStep {α : Type} (jb : JitterBuffer α) (buf : List (Nat × α)) :
    JitterBuffer α × Option α :=
  match buf with
  | [] => ({ jb with buffer := [], maxlen := none }, none)
  | (seq, data) :: rest =>
    if seq = jb.expected_seq then
      ({ jb with buffer := rest, maxlen := none,
                 expected_seq := jb.expected_seq + 1 }, some data)
    else
      ({ jb with buffer := (seq, data) :: rest, maxlen := none }, none)

/-- `JitterBuffer.add_frame(audio_data, seq_num)`: append `(seq_num, audio_data)`
to the deque (honouring the current `maxlen`), rebuild the deque sorted by
sequence number — `deque(sorted(self.buffer, key=lambda x: x[0]))`, which drops
the `maxlen` —, then release the head if it carries `expected_seq`. -/
def JitterBuffer.add_frame {α : Type} (jb : JitterBuffer α) (audio_data : α)
    (seq_num : Nat) : JitterBuffer α × Option α :=
  releaseStep jb (sortBySeq (dequeAppend jb.maxlen jb.buffer (seq_num, audio_data)))

/-- `JitterBuffer.get_buffer_size()`: number of pending frames. -/
def JitterBuffer.get_buffer_size {α : Type} (jb : JitterBuffer α) : Nat :=
  jb.buffer.length

/-- Run a list of `add_frame` calls (each `(audio_data, seq_num)`) from a given
buffer state, recording for every release the value of `expected_seq` at the
moment of the call together with the released payload. -/
def runAddFrames {α : Type} (jb : JitterBuffer α) :
    List (α × Nat) → JitterBuffer α × List (Nat × α)
  | [] => (jb, [])
  | (d, s) :: calls =>
    let step := jb.add_frame d s
    let rest := runAddFrames step.1 calls
    match step.2 with
    | some out => (rest.1, (jb.expected_seq, out) :: rest.2)
    | none => (rest.1, rest.2)

/-- `UserSession` dataclass: identity, transport handle (modelled as a `Nat`),
owned jitter buffer and audio queue, and the configuration fields with their
dataclass defaults (`display_subtitles` and `enable_translation` default to
`False`). The `created_at` timestamp and the running statistics record are
omitted: no claim observes them. -/
structure UserSession where
  session_id : String
  connection_id : String
  websocket : Nat
  jitter_buffer : JitterBuffer (List Nat)
  audio_queue : List (Nat × List Nat)
  language : String := "en"
  translate_to : Option String := none
  display_subtitles : Bool := false
  enable_translation : Bool := false
deriving DecidableEq

/-- Direct construction of a `UserSession` with the dataclass defaults for the
configuration fields, as `create_session` does. -/
def UserSession.mkDefault (sid cid : String) (ws : Nat) : UserSession :=
  { session_id := sid, connection_id := cid, websocket := ws,
    jitter_buffer := JitterBuffer.init (List Nat) 10, audio_queue := [] }

/-- Python `dict` membership test `k in d` for a dict modelled as an
insertion-ordered association list with unique keys. -/
def dictContains {κ ν : Type} [DecidableEq κ] (d : List (κ × ν)) (k : κ) : Bool :=
  d.any (fun p => decide (p.1 = k))

/-- Python `dict` assignment `d[k] = v`: replace in place when the key is
present, append otherwise. -/
def dictInsert {κ ν : Type} [DecidableEq κ] (d : List (κ × ν)) (k : κ) (v : ν) :
    List (κ × ν) :=
  if dictContains d k then d.map (fun p => if p.1 = k then (k, v) else p)
  else d ++ [(k, v)]

/-- `ConnectionManager` state: the connection ceiling and the three registry
maps (`session_id → UserSession`, `connection_id → session_id`,
`websocket → connection_id`). -/
structure ConnectionManager where
  max_connections : Nat
  active_sessions : List (String × UserSession)
  connection_to_session : List (String × String)
  websocket_to_connection : List (Nat × String)
deriving DecidableEq

/-- `ConnectionManager.__init__(max_connections)` (source default 50): all
three maps empty. -/
def ConnectionManager.init (max_connections : Nat) : ConnectionManager :=
  { max_connections := max_connections, active_sessions := [],
    connection_to_session := [], websocket_to_connection := [] }

/-- `ConnectionManager.create_session(websocket, session_id, connection_id)`.
The two generated identifiers (in the source: a time/uuid-derived session id
and a uuid connection id, used when the corresponding argument is `None`) are
passed in as `gen_session_id` / `gen_connection_id`. A raised exception is an
`Except.error` paired with the manager state at the raise point (which the
source leaves untouched: both raises precede every map mutation). -/
def ConnectionManager.create_session (cm : ConnectionManager) (websocket : Nat)
    (session_id : Option String) (connection_id : Option String)
    (gen_session_id gen_connection_id : String) :
    ConnectionManager × Except String UserSession :=
  if cm.max_connections ≤ cm.active_sessions.length then
    (cm, .error "max connections exceeded")
  else
    let sid := session_id.getD gen_session_id
    let cid := connection_id.getD gen_connection_id
    if dictContains cm.active_sessions sid then
      (cm, .error "session id already exists")
    else
      let session : UserSession := UserSession.mkDefault sid cid websocket
      ({ cm with
          active_sessions := dictInsert cm.active_sessions sid session,
          connection_to_session := dictInsert cm.connection_to_session cid sid,
          websocket_to_connection := dictInsert cm.websocket_to_connection websocket cid },
        .ok session)

/-- `ConnectionManager.get_active_session_count()`. -/
def ConnectionManager.get_active_session_count (cm : ConnectionManager) : Nat :=
  cm.active_sessions.length

/-- One iteration body of `STTService._process_session_audio` for one dequeued
queue item: `if audio_data:` extend the accumulator, and when the accumulator
reaches 8192 bytes dispatch it (`bytes(audio_buffer)`) and clear it. Returns
the accumulator after the iteration and the dispatched batch, if any. -/
def processChunk (audio_buffer audio_data : List Nat) :
    List Nat × Option (List Nat) :=
  if audio_data = [] then (audio_buffer, none)
  else
    let buf := audio_buffer ++ audio_data
    if 8192 ≤ buf.length then ([], some buf)
    else (buf, none)

/-- Run the audio-processing loop over a list of dequeued chunks, collecting
the batches dispatched to `_transcribe_session_audio` in order. -/
def runAudioLoop (audio_buffer : List Nat) :
    List (List Nat) → List Nat × List (List Nat)
  | [] => (audio_buffer, [])
  | chunk :: rest =>
    let step := processChunk audio_buffer chunk
    let r := runAudioLoop step.1 rest
    match step.2 with
    | some batch => (r.1, batch :: r.2)
    | none => (r.1, r.2)

/-- Fields of an accepted `init` message that `handle_client` reads, each
optional (`init_data.get(...)`). -/
structure InitData where
  session_id : Option String
  language : Option String
  translate_to : Option String
  display_subtitles : Option Bool
deriving DecidableEq

/-- The four session-configuration assignments `handle_client` performs on the
freshly created session (source lines 618–621):
`language = init_data.get("language", "en")`,
`translate_to = init_data.get("translate_to")`,
`enable_translation = bool(session.translate_to)`,
`display_subtitles = init_data.get("display_subtitles", True)`. -/
def applySessionConfig (session : UserSession) (init_data : InitData) : UserSession :=
  let s1 := { session with language := init_data.language.getD "en" }
  let s2 := { s1 with translate_to := init_data.translate_to }
  let s3 := { s2 with enable_translation := strTruthy s2.translate_to }
  { s3 with display_subtitles := init_data.display_subtitles.getD true }

end STT

namespace STT

/-! Lemmas about the stable sort and the release step. -/

theorem sortBySeq_perm {α : Type} (l : List (Nat × α)) : (sortBySeq l).Perm l :=
  List.perm_insertionSort _ l

theorem sortBySeq_sorted {α : Type} (l : List (Nat × α)) :
    (sortBySeq l).Sorted (fun x y => x.1 ≤ y.1) := by
  haveI : IsTotal (Nat × α) (fun x y => x.1 ≤ y.1) :=
    ⟨fun a b => Nat.le_total a.1 b.1⟩
  haveI : IsTrans (Nat × α) (fun x y => x.1 ≤ y.1) :=
    ⟨fun a b c hab hbc => Nat.le_trans hab hbc⟩
  exact List.sorted_insertionSort _ l

theorem sortBySeq_head_min {α : Type} (l : List (Nat × α)) (q : Nat × α)
    (rest : List (Nat × α)) (h : sortBySeq l = q :: rest)
    (p : Nat × α) (hp : p ∈ l) : q.1 ≤ p.1 := by
  have hs := sortBySeq_sorted l
  rw [h] at hs
  have hmem : p ∈ q :: rest := by
    have hiff := (sortBySeq_perm l).mem_iff (a := p)
    rw [h] at hiff
    exact hiff.mpr hp
  rcases List.mem_cons.mp hmem with rfl | hmem
  · exact Nat.le_refl _
  · exact (List.pairwise_cons.mp hs).1 p hmem

theorem releaseStep_some {α : Type} (jb : JitterBuffer α) (buf : List (Nat × α))
    (out : α) (h : (releaseStep jb buf).2 = some out) :
    buf = (jb.expected_seq, out) :: (releaseStep jb buf).1.buffer ∧
    (releaseStep jb buf).1.expected_seq = jb.expected_seq + 1 := by
  match buf with
  | [] => simp [releaseStep] at h
  | (seq, data) :: rest =>
    by_cases hseq : seq = jb.expected_seq
    · simp [releaseStep, hseq] at h ⊢
      exact h
    · simp [releaseStep, hseq] at h

theorem releaseStep_none {α : Type} (jb : JitterBuffer α) (buf : List (Nat × α))
    (h : (releaseStep jb buf).2 = none) :
    (releaseStep jb buf).1.buffer = buf ∧
    (releaseStep jb buf).1.expected_seq = jb.expected_seq := by
  match buf with
  | [] => simp [releaseStep] at h ⊢
  | (seq, data) :: rest =>
    by_cases hseq : seq = jb.expected_seq
    · simp [releaseStep, hseq] at h
    · simp [releaseStep, hseq]

theorem add_frame_some {α : Type} (jb : JitterBuffer α) (d : α) (s : Nat) (out : α)
    (h : (jb.add_frame d s).2 = some out) :
    sortBySeq (dequeAppend jb.maxlen jb.buffer (s, d)) =
      (jb.expected_seq, out) :: (jb.add_frame d s).1.buffer ∧
    (jb.add_frame d s).1.expected_seq = jb.expected_seq + 1 :=
  releaseStep_some jb _ out h

theorem add_frame_none {α : Type} (jb : JitterBuffer α) (d : α) (s : Nat)
    (h : (jb.add_frame d s).2 = none) :
    (jb.add_frame d s).1.buffer = sortBySeq (dequeAppend jb.maxlen jb.buffer (s, d)) ∧
    (jb.add_frame d s).1.expected_seq = jb.expected_seq :=
  releaseStep_none jb _ h

theorem runAddFrames_cons {α : Type} (jb : JitterBuffer α) (d : α) (s : Nat)
    (calls : List (α × Nat)) :
    runAddFrames jb ((d, s) :: calls) =
      match (jb.add_frame d s).2 with
      | some out => ((runAddFrames (jb.add_frame d s).1 calls).1,
          (jb.expected_seq, out) :: (runAddFrames (jb.add_frame d s).1 calls).2)
      | none => runAddFrames (jb.add_frame d s).1 calls := by
  rfl

theorem runAddFrames_releases {α : Type} (calls : List (α × Nat)) (jb : JitterBuffer α) :
    (runAddFrames jb calls).2.map Prod.fst =
      List.range' jb.expected_seq (runAddFrames jb calls).2.length ∧
    (runAddFrames jb calls).1.expected_seq =
      jb.expected_seq + (runAddFrames jb calls).2.length := by
  induction calls generalizing jb with
  | nil => simp [runAddFrames]
  | cons c calls ih =>
    obtain ⟨d, s⟩ := c
    rw [runAddFrames_cons]
    rcases hout : (jb.add_frame d s).2 with _ | out
    · have hexp : (jb.add_frame d s).1.expected_seq = jb.expected_seq :=
        (add_frame_none jb d s hout).2
      have h2 := ih (jb.add_frame d s).1
      rw [hexp] at h2
      exact h2
    · have hexp : (jb.add_frame d s).1.expected_seq = jb.expected_seq + 1 :=
        (add_frame_some jb d s out hout).2
      have h2 := ih (jb.add_frame d s).1
      rw [hexp] at h2
      refine ⟨?_, ?_⟩
      · simp only [List.map_cons, List.length_cons, List.range'_succ]
        exact congrArg (jb.expected_seq :: ·) h2.1
      · simp only [List.length_cons]
        omega

theorem add_frame_head_ne {α : Type} (jb : JitterBuffer α) (d : α) (s : Nat)
    (h : ∀ (q : Nat × α) (rest : List (Nat × α)),
      sortBySeq (dequeAppend jb.maxlen jb.buffer (s, d)) = q :: rest →
      q.1 ≠ jb.expected_seq) :
    (jb.add_frame d s).2 = none ∧
    (jb.add_frame d s).1.expected_seq = jb.expected_seq ∧
    (jb.add_frame d s).1.maxlen = none ∧
    ((jb.add_frame d s).1.buffer).Perm (dequeAppend jb.maxlen jb.buffer (s, d)) := by
  rcases hsort : sortBySeq (dequeAppend jb.maxlen jb.buffer (s, d)) with _ | ⟨q, rest⟩
  · have happ : dequeAppend jb.maxlen jb.buffer (s, d) = [] := by
      have := sortBySeq_perm (dequeAppend jb.maxlen jb.buffer (s, d))
      rw [hsort] at this
      exact this.nil_eq.symm
    simp only [JitterBuffer.add_frame, hsort, releaseStep]
    rw [happ]
    exact ⟨trivial, trivial, trivial, List.Perm.refl _⟩
  · have hne : q.1 ≠ jb.expected_seq := h q rest hsort
    obtain ⟨qs, qd⟩ := q
    simp only [JitterBuffer.add_frame, hsort, releaseStep]
    simp only [if_neg hne]
    refine ⟨trivial, trivial, trivial, ?_⟩
    rw [← hsort]
    exact sortBySeq_perm _

theorem add_frame_blocked {α : Type} (jb : JitterBuffer α) (d : α) (s : Nat)
    (h : ∃ p ∈ dequeAppend jb.maxlen jb.buffer (s, d), p.1 < jb.expected_seq) :
    (jb.add_frame d s).2 = none ∧
    (jb.add_frame d s).1.expected_seq = jb.expected_seq ∧
    (jb.add_frame d s).1.maxlen = none ∧
    ((jb.add_frame d s).1.buffer).Perm (dequeAppend jb.maxlen jb.buffer (s, d)) ∧
    ∃ p ∈ (jb.add_frame d s).1.buffer, p.1 < (jb.add_frame d s).1.expected_seq := by
  obtain ⟨p, hp, hlt⟩ := h
  have hcore := add_frame_head_ne jb d s (fun q rest hsort => by
    have hq : q.1 ≤ p.1 := sortBySeq_head_min _ q rest hsort p hp
    omega)
  refine ⟨hcore.1, hcore.2.1, hcore.2.2.1, hcore.2.2.2, ?_⟩
  refine ⟨p, ?_, ?_⟩
  · exact hcore.2.2.2.mem_iff.mpr hp
  · rw [hcore.2.1]
    exact hlt

theorem runAddFrames_stuck {α : Type} (calls : List (α × Nat)) (jb : JitterBuffer α)
    (hml : jb.maxlen = none) (h : ∃ p ∈ jb.buffer, p.1 < jb.expected_seq) :
    (runAddFrames jb calls).2 = [] ∧
    (runAddFrames jb calls).1.expected_seq = jb.expected_seq := by
  induction calls generalizing jb with
  | nil => simp [runAddFrames]
  | cons c calls ih =>
    obtain ⟨d, s⟩ := c
    have happ : ∃ p ∈ dequeAppend jb.maxlen jb.buffer (s, d), p.1 < jb.expected_seq := by
      obtain ⟨p, hp, hlt⟩ := h
      exact ⟨p, by rw [hml]; exact List.mem_append_left _ hp, hlt⟩
    obtain ⟨hnone, hexp, hml2, _, hstale⟩ := add_frame_blocked jb d s happ
    rw [runAddFrames_cons, hnone]
    have hrec := ih (jb.add_frame d s).1 hml2 hstale
    exact ⟨hrec.1, by rw [hrec.2, hexp]⟩

end STT

namespace STT

/-- C1: over any sequence of `add_frame` calls on a fresh `JitterBuffer`
(`expected_seq = 0`), the recorded releases (at most one per call, by the
`Option` result type) carry sequence numbers forming exactly the contiguous
strictly increasing list `0, 1, 2, ...` with no repetition, the final
`expected_seq` equals the number of releases, and any release anywhere is the
head of the sorted post-insert buffer whose sequence number equals
`expected_seq` at that moment, each release advancing `expected_seq` by
exactly 1. -/
theorem jitter_release_in_order {α : Type} (calls : List (α × Nat)) :
    ((runAddFrames (JitterBuffer.init α 10) calls).2.map Prod.fst =
      List.range (runAddFrames (JitterBuffer.init α 10) calls).2.length) ∧
    ((runAddFrames (JitterBuffer.init α 10) calls).2.map Prod.fst).Nodup ∧
    ((runAddFrames (JitterBuffer.init α 10) calls).1.expected_seq =
      (runAddFrames (JitterBuffer.init α 10) calls).2.length) ∧
    ∀ (jb : JitterBuffer α) (d : α) (s : Nat) (out : α),
      (jb.add_frame d s).2 = some out →
      sortBySeq (dequeAppend jb.maxlen jb.buffer (s, d)) =
        (jb.expected_seq, out) :: (jb.add_frame d s).1.buffer ∧
      (jb.add_frame d s).1.expected_seq = jb.expected_seq + 1 := by
  have h := runAddFrames_releases calls (JitterBuffer.init α 10)
  have hexp0 : (JitterBuffer.init α 10).expected_seq = 0 := rfl
  rw [hexp0] at h
  have hrange : (runAddFrames (JitterBuffer.init α 10) calls).2.map Prod.fst =
      List.range (runAddFrames (JitterBuffer.init α 10) calls).2.length := by
    rw [List.range_eq_range']
    exact h.1
  refine ⟨hrange, ?_, ?_, fun jb d s out hrel => add_frame_some jb d s out hrel⟩
  · rw [hrange]
    exact List.nodup_range _
  · rw [h.2]
    exact Nat.zero_add _

/-- Witness for C1: on a fresh buffer, `add_frame` with sequence 0 releases the
frame, the released frame heads the sorted buffer at `expected_seq`, and
`expected_seq` advances by 1. -/
theorem jitter_release_in_order_witness :
    sortBySeq (dequeAppend (JitterBuffer.init Nat 10).maxlen
        (JitterBuffer.init Nat 10).buffer (0, 42)) =
      ((JitterBuffer.init Nat 10).expected_seq, 42) ::
        ((JitterBuffer.init Nat 10).add_frame 42 0).1.buffer ∧
    ((JitterBuffer.init Nat 10).add_frame 42 0).1.expected_seq =
      (JitterBuffer.init Nat 10).expected_seq + 1 :=
  (jitter_release_in_order ([] : List (Nat × Nat))).2.2.2
    (JitterBuffer.init Nat 10) 42 0 42 (by decide)

/-- C2 (code bug evaluation): with the default capacity of 10, eleven
`add_frame` calls with sequence numbers 1..11 (none of which can be released,
`expected_seq` staying 0) leave 11 pending frames — the rebuilt deque
`deque(sorted(...))` has lost its `maxlen`, so no insert ever evicts and
`get_buffer_size` exceeds the capacity bound claimed by the spec. -/
theorem jitter_capacity_overflow :
    (runAddFrames (JitterBuffer.init Nat 10)
        ((List.range 11).map (fun i => (i + 1, i + 1)))).1.get_buffer_size = 11 ∧
    (runAddFrames (JitterBuffer.init Nat 10)
        ((List.range 11).map (fun i => (i + 1, i + 1)))).2 = [] := by
  decide

/-- C3 (code bug evaluation): a capacity-2 buffer given sequences `[5, 6, 7]`
keeps all three frames pending — the frame for sequence 5 is NOT evicted
(contrary to the claimed FIFO eviction), every call returns `None`, and
`expected_seq` stays 0; the pending count 3 exceeds the claimed capacity 2. -/
theorem jitter_no_fifo_eviction :
    (runAddFrames (JitterBuffer.init Nat 2) [(10, 5), (20, 6), (30, 7)]).1.buffer =
      [(5, 10), (6, 20), (7, 30)] ∧
    (runAddFrames (JitterBuffer.init Nat 2) [(10, 5), (20, 6), (30, 7)]).2 = [] ∧
    (runAddFrames (JitterBuffer.init Nat 2) [(10, 5), (20, 6), (30, 7)]).1.expected_seq = 0 ∧
    (runAddFrames (JitterBuffer.init Nat 2) [(10, 5), (20, 6), (30, 7)]).1.get_buffer_size = 3 := by
  decide

/-- Counterexample to C4: after a fresh buffer releases frame 0
(`expected_seq = 1`), a late duplicate `add_frame` with sequence 0 returns
`None` but does NOT leave the buffer unchanged — the stale frame is inserted,
so the claimed no-effect property fails at this input. -/
theorem jitter_late_frame_counterexample :
    ((((JitterBuffer.init Nat 10).add_frame 100 0).1).add_frame 200 0).2 = none ∧
    (0 : Nat) < ((JitterBuffer.init Nat 10).add_frame 100 0).1.expected_seq ∧
    ((((JitterBuffer.init Nat 10).add_frame 100 0).1).add_frame 200 0).1 ≠
      ((JitterBuffer.init Nat 10).add_frame 100 0).1 := by
  decide

/-- C4 amended: `add_frame` with a sequence number below `expected_seq` returns
`None` and leaves `expected_seq` unchanged, but the late frame IS inserted (the
new pending multiset is the old one plus the late frame), and the stale entry
permanently blocks the buffer: no subsequent sequence of `add_frame` calls ever
releases a frame again. (`maxlen = none` holds for every buffer that has
already processed a call, which is required for `expected_seq > 0`.) -/
theorem jitter_late_frame_amended {α : Type} (jb : JitterBuffer α) (d : α) (s : Nat)
    (hml : jb.maxlen = none) (hs : s < jb.expected_seq) :
    (jb.add_frame d s).2 = none ∧
    (jb.add_frame d s).1.expected_seq = jb.expected_seq ∧
    ((jb.add_frame d s).1.buffer).Perm ((s, d) :: jb.buffer) ∧
    ∀ calls : List (α × Nat), (runAddFrames (jb.add_frame d s).1 calls).2 = [] := by
  have happEq : dequeAppend jb.maxlen jb.buffer (s, d) = jb.buffer ++ [(s, d)] := by
    rw [hml]; rfl
  have happ : ∃ p ∈ dequeAppend jb.maxlen jb.buffer (s, d), p.1 < jb.expected_seq := by
    refine ⟨(s, d), ?_, hs⟩
    rw [happEq]
    exact List.mem_append_right _ (List.mem_singleton_self _)
  obtain ⟨hnone, hexp, hml2, hperm, hstale⟩ := add_frame_blocked jb d s happ
  refine ⟨hnone, hexp, ?_, ?_⟩
  · rw [happEq] at hperm
    exact hperm.trans (List.perm_append_singleton _ _)
  · intro calls
    exact (runAddFrames_stuck calls _ hml2 hstale).1

/-- Witness for the amended C4: the late duplicate of the counterexample state
returns `None`, and afterwards even a frame carrying the expected sequence 1 is
not released — the buffer is permanently stuck. -/
theorem jitter_late_frame_amended_witness :
    ((((JitterBuffer.init Nat 10).add_frame 100 0).1).add_frame 200 0).2 = none ∧
    (runAddFrames ((((JitterBuffer.init Nat 10).add_frame 100 0).1).add_frame 200 0).1
        [(300, 1)]).2 = [] := by
  have h := jitter_late_frame_amended (((JitterBuffer.init Nat 10).add_frame 100 0).1)
    200 0 (by decide) (by decide)
  exact ⟨h.1, h.2.2.2 [(300, 1)]⟩

/-- Counterexample to C5: a buffer pending `(5, 100)` (with
`expected_seq = 0 ≤ 5`) given `add_frame` with the same sequence 5 and new
payload 200 ends with TWO pending entries for sequence 5 and a depth increased
by one — the claimed overwrite (exactly one entry, depth not increased)
fails at this input. -/
theorem jitter_duplicate_seq_counterexample :
    ((((JitterBuffer.init Nat 10).add_frame 100 5).1).add_frame 200 5).1.buffer.countP
        (fun p => decide (p.1 = 5)) = 2 ∧
    ((((JitterBuffer.init Nat 10).add_frame 100 5).1).add_frame 200 5).1.get_buffer_size =
      (((JitterBuffer.init Nat 10).add_frame 100 5).1).get_buffer_size + 1 ∧
    (5 : Nat) ≥ (((JitterBuffer.init Nat 10).add_frame 100 5).1).expected_seq := by
  decide

/-- C5 amended: inserting a frame whose sequence number `s` is already pending
(all pending sequence numbers lying strictly above `expected_seq`, so no
release fires) does NOT overwrite: the call returns `None`, both the old and
the new payload are pending afterwards, the pending count for `s` grows by
one, and the depth increases by one. -/
theorem jitter_duplicate_seq_amended {α : Type} (jb : JitterBuffer α)
    (dOld dNew : α) (s : Nat) (hml : jb.maxlen = none)
    (hmem : (s, dOld) ∈ jb.buffer)
    (hall : ∀ p ∈ jb.buffer, jb.expected_seq < p.1) :
    (jb.add_frame dNew s).2 = none ∧
    (jb.add_frame dNew s).1.expected_seq = jb.expected_seq ∧
    (s, dOld) ∈ (jb.add_frame dNew s).1.buffer ∧
    (s, dNew) ∈ (jb.add_frame dNew s).1.buffer ∧
    (jb.add_frame dNew s).1.get_buffer_size = jb.get_buffer_size + 1 ∧
    (jb.add_frame dNew s).1.buffer.countP (fun p => decide (p.1 = s)) =
      jb.buffer.countP (fun p => decide (p.1 = s)) + 1 := by
  have hsgt : jb.expected_seq < s := hall _ hmem
  have happEq : dequeAppend jb.maxlen jb.buffer (s, dNew) = jb.buffer ++ [(s, dNew)] := by
    rw [hml]; rfl
  have hcore := add_frame_head_ne jb dNew s (fun q rest hsort => by
    have hqmem : q ∈ dequeAppend jb.maxlen jb.buffer (s, dNew) := by
      have hiff := (sortBySeq_perm (dequeAppend jb.maxlen jb.buffer (s, dNew))).mem_iff (a := q)
      rw [hsort] at hiff
      exact hiff.mp (List.mem_cons_self _ _)
    rw [happEq] at hqmem
    rcases List.mem_append.mp hqmem with hq | hq
    · have := hall q hq
      omega
    · rcases List.mem_singleton.mp hq with rfl
      simp only
      omega)
  have hperm := hcore.2.2.2
  rw [happEq] at hperm
  refine ⟨hcore.1, hcore.2.1, ?_, ?_, ?_, ?_⟩
  · exact hperm.mem_iff.mpr (List.mem_append_left _ hmem)
  · exact hperm.mem_iff.mpr (List.mem_append_right _ (List.mem_singleton_self _))
  · show (jb.add_frame dNew s).1.buffer.length = jb.buffer.length + 1
    rw [hperm.length_eq]
    simp
  · rw [hperm.countP_eq, List.countP_append]
    simp

/-- Witness for the amended C5: the duplicate insert of the counterexample
state returns `None` and raises the pending count for sequence 5 from 1 to 2. -/
theorem jitter_duplicate_seq_amended_witness :
    ((((JitterBuffer.init Nat 10).add_frame 100 5).1).add_frame 200 5).2 = none ∧
    ((((JitterBuffer.init Nat 10).add_frame 100 5).1).add_frame 200 5).1.buffer.countP
        (fun p => decide (p.1 = 5)) =
      (((JitterBuffer.init Nat 10).add_frame 100 5).1).buffer.countP
        (fun p => decide (p.1 = 5)) + 1 := by
  have h := jitter_duplicate_seq_amended (((JitterBuffer.init Nat 10).add_frame 100 5).1)
    100 200 5 (by decide) (by decide) (by decide)
  exact ⟨h.1, h.2.2.2.2.2⟩

/-- C6: a fresh buffer fed sequences `2, 0, 1` (payloads 10, 20, 30) returns
`None`, then the payload for sequence 0, then the payload for sequence 1;
afterwards `expected_seq = 2` and the frame for sequence 2 is still pending. -/
theorem jitter_reorder_repair :
    ((JitterBuffer.init Nat 10).add_frame 10 2).2 = none ∧
    ((((JitterBuffer.init Nat 10).add_frame 10 2).1).add_frame 20 0).2 = some 20 ∧
    ((((((JitterBuffer.init Nat 10).add_frame 10 2).1).add_frame 20 0).1).add_frame 30 1).2 =
      some 30 ∧
    ((((((JitterBuffer.init Nat 10).add_frame 10 2).1).add_frame 20 0).1).add_frame 30 1).1.expected_seq = 2 ∧
    ((((((JitterBuffer.init Nat 10).add_frame 10 2).1).add_frame 20 0).1).add_frame 30 1).1.buffer =
      [(2, 10)] := by
  decide

end STT

namespace STT

theorem processChunk_some (buf chunk batch : List Nat)
    (h : (processChunk buf chunk).2 = some batch) :
    batch = buf ++ chunk ∧ 8192 ≤ batch.length ∧ (processChunk buf chunk).1 = [] := by
  by_cases hnil : chunk = []
  · simp [processChunk, hnil] at h
  · by_cases hlen : 8192 ≤ buf.length + chunk.length
    · have hb : batch = buf ++ chunk := by
        simp [processChunk, hnil, hlen] at h
        exact h.symm
      subst hb
      refine ⟨rfl, by simpa using hlen, by simp [processChunk, hnil, hlen]⟩
    · simp [processChunk, hnil, hlen] at h

theorem processChunk_none (buf chunk : List Nat) (hbuf : buf.length < 8192)
    (h : (processChunk buf chunk).2 = none) :
    (processChunk buf chunk).1 = buf ++ chunk ∧
    (processChunk buf chunk).1.length < 8192 := by
  by_cases hnil : chunk = []
  · subst hnil
    refine ⟨by simp [processChunk], ?_⟩
    simpa [processChunk] using hbuf
  · by_cases hlen : 8192 ≤ buf.length + chunk.length
    · simp [processChunk, hnil, hlen] at h
    · refine ⟨by simp [processChunk, hnil, hlen], ?_⟩
      simp only [processChunk, if_neg hnil]
      rw [if_neg (by simpa using hlen)]
      simpa using Nat.lt_of_not_le hlen

theorem runAudioLoop_cons (buf0 chunk : List Nat) (rest : List (List Nat)) :
    runAudioLoop buf0 (chunk :: rest) =
      match (processChunk buf0 chunk).2 with
      | some batch => ((runAudioLoop (processChunk buf0 chunk).1 rest).1,
          batch :: (runAudioLoop (processChunk buf0 chunk).1 rest).2)
      | none => runAudioLoop (processChunk buf0 chunk).1 rest := by
  rfl

theorem runAudioLoop_spec (chunks : List (List Nat)) (buf0 : List Nat)
    (h : buf0.length < 8192) :
    (runAudioLoop buf0 chunks).2.flatten ++ (runAudioLoop buf0 chunks).1 =
      buf0 ++ chunks.flatten ∧
    (∀ b ∈ (runAudioLoop buf0 chunks).2, 8192 ≤ b.length) ∧
    (runAudioLoop buf0 chunks).1.length < 8192 := by
  induction chunks generalizing buf0 with
  | nil =>
    refine ⟨by simp [runAudioLoop], by simp [runAudioLoop], ?_⟩
    simpa [runAudioLoop] using h
  | cons c rest ih =>
    rcases hstep : (processChunk buf0 c).2 with _ | batch
    · obtain ⟨heq, hlt⟩ := processChunk_none buf0 c h hstep
      have hrec := ih (processChunk buf0 c).1 hlt
      rw [runAudioLoop_cons, hstep]
      refine ⟨?_, hrec.2.1, hrec.2.2⟩
      rw [hrec.1, heq, List.flatten_cons, List.append_assoc]
    · obtain ⟨hbatch, hlen, hclear⟩ := processChunk_some buf0 c batch hstep
      have hrec := ih (processChunk buf0 c).1 (by rw [hclear]; simp)
      rw [runAudioLoop_cons, hstep]
      refine ⟨?_, ?_, hrec.2.2⟩
      · simp only [List.flatten_cons, List.append_assoc]
        rw [hrec.1, hclear, hbatch]
        simp
      · intro b hb
        rcases List.mem_cons.mp hb with rfl | hb
        · exact hlen
        · exact hrec.2.1 b hb

/-- C9: over the audio loop, the dispatched batches concatenated with the final
accumulator equal the initial accumulator plus all fed chunks in arrival order
(so each batch is exactly the bytes accumulated since the previous dispatch),
every dispatched batch is at least 8192 bytes, after each completed iteration
the accumulator stays below 8192, and a dispatch leaves the accumulator empty
and equal to `buf ++ chunk` with length at least 8192. -/
theorem audio_batching (chunks : List (List Nat)) (buf0 : List Nat)
    (hbuf : buf0.length < 8192) :
    ((runAudioLoop buf0 chunks).2.flatten ++ (runAudioLoop buf0 chunks).1 =
      buf0 ++ chunks.flatten) ∧
    (∀ b ∈ (runAudioLoop buf0 chunks).2, 8192 ≤ b.length) ∧
    ((runAudioLoop buf0 chunks).1.length < 8192) ∧
    ∀ buf chunk batch : List Nat, (processChunk buf chunk).2 = some batch →
      batch = buf ++ chunk ∧ 8192 ≤ batch.length ∧ (processChunk buf chunk).1 = [] := by
  have h := runAudioLoop_spec chunks buf0 hbuf
  exact ⟨h.1, h.2.1, h.2.2, processChunk_some⟩

/-- Witness for C9: feeding one 8192-byte chunk into an empty accumulator
dispatches everything and leaves the accumulator empty (length below 8192). -/
theorem audio_batching_witness :
    ((runAudioLoop [] [List.replicate 8192 0]).2.flatten ++
        (runAudioLoop [] [List.replicate 8192 0]).1 =
      [] ++ [List.replicate 8192 0].flatten) ∧
    (runAudioLoop [] [List.replicate 8192 0]).1.length < 8192 := by
  have h := audio_batching [List.replicate 8192 0] [] (by simp)
  exact ⟨h.1, h.2.2.1⟩

theorem dictInsert_length_new {κ ν : Type} [DecidableEq κ]
    (d : List (κ × ν)) (k : κ) (v : ν) (h : dictContains d k = false) :
    (dictInsert d k v).length = d.length + 1 := by
  simp [dictInsert, h]

/-- C7: `create_session` at or above the connection ceiling fails and returns
the manager unchanged (all three maps and the active count untouched), a
successful `create_session` increases the active count by exactly 1, and
`create_session` preserves the invariant `active count ≤ max_connections`. -/
theorem cm_capacity_invariant (cm : ConnectionManager) (ws : Nat)
    (session_id connection_id : Option String) (g1 g2 : String) :
    (cm.max_connections ≤ cm.get_active_session_count →
      cm.create_session ws session_id connection_id g1 g2 =
        (cm, Except.error "max connections exceeded")) ∧
    (∀ (cm2 : ConnectionManager) (session : UserSession),
      cm.create_session ws session_id connection_id g1 g2 = (cm2, Except.ok session) →
      cm2.get_active_session_count = cm.get_active_session_count + 1) ∧
    (cm.get_active_session_count ≤ cm.max_connections →
      (cm.create_session ws session_id connection_id g1 g2).1.get_active_session_count ≤
        cm.max_connections) := by
  refine ⟨?_, ?_, ?_⟩
  · intro hge
    have hge2 : cm.max_connections ≤ cm.active_sessions.length := hge
    simp only [ConnectionManager.create_session, if_pos hge2]
  · intro cm2 session h
    by_cases hge : cm.max_connections ≤ cm.active_sessions.length
    · simp only [ConnectionManager.create_session, if_pos hge, Prod.mk.injEq] at h
      exact absurd h.2 (by simp)
    · simp only [ConnectionManager.create_session, if_neg hge] at h
      by_cases hdup : dictContains cm.active_sessions (session_id.getD g1) = true
      · rw [if_pos hdup, Prod.mk.injEq] at h
        exact absurd h.2 (by simp)
      · rw [if_neg hdup, Prod.mk.injEq] at h
        obtain ⟨h1, h2⟩ := h
        show cm2.active_sessions.length = cm.active_sessions.length + 1
        rw [← h1]
        exact dictInsert_length_new _ _ _ (by simpa using hdup)
  · intro hle
    by_cases hge : cm.max_connections ≤ cm.active_sessions.length
    · simp only [ConnectionManager.create_session, if_pos hge]
      exact hle
    · simp only [ConnectionManager.create_session, if_neg hge]
      by_cases hdup : dictContains cm.active_sessions (session_id.getD g1) = true
      · rw [if_pos hdup]
        exact hle
      · rw [if_neg hdup]
        show (dictInsert cm.active_sessions _ _).length ≤ cm.max_connections
        rw [dictInsert_length_new _ _ _ (by simpa using hdup)]
        omega

/-- Witness for C7: a manager at ceiling 0 rejects creation unchanged, a
successful creation on a ceiling-1 manager raises the count from 0 to 1, and
the count stays within the ceiling. -/
theorem cm_capacity_invariant_witness :
    ((ConnectionManager.init 0).create_session 7 none none "s1" "c1" =
      (ConnectionManager.init 0, Except.error "max connections exceeded")) ∧
    ({ max_connections := 1,
       active_sessions := [("s1", UserSession.mkDefault "s1" "c1" 7)],
       connection_to_session := [("c1", "s1")],
       websocket_to_connection := [(7, "c1")] } : ConnectionManager).get_active_session_count =
      (ConnectionManager.init 1).get_active_session_count + 1 ∧
    ((ConnectionManager.init 1).create_session 7 none none "s1" "c1").1.get_active_session_count ≤ 1 := by
  have h0 := cm_capacity_invariant (ConnectionManager.init 0) 7 none none "s1" "c1"
  have h1 := cm_capacity_invariant (ConnectionManager.init 1) 7 none none "s1" "c1"
  refine ⟨h0.1 (by decide), ?_, h1.2.2 (by decide)⟩
  exact h1.2.1 _ (UserSession.mkDefault "s1" "c1" 7) rfl

/-- C8: below the ceiling, `create_session` with a `session_id` already active
raises and leaves the manager (all three maps, hence the active count)
entirely unchanged. -/
theorem cm_duplicate_rejected (cm : ConnectionManager) (ws : Nat) (s : String)
    (connection_id : Option String) (g1 g2 : String)
    (hlt : cm.get_active_session_count < cm.max_connections)
    (hdup : dictContains cm.active_sessions s = true) :
    (cm.create_session ws (some s) connection_id g1 g2).1 = cm ∧
    (cm.create_session ws (some s) connection_id g1 g2).2 =
      Except.error "session id already exists" := by
  have hge : ¬ cm.max_connections ≤ cm.active_sessions.length := by
    have hlt2 : cm.active_sessions.length < cm.max_connections := hlt
    omega
  simp only [ConnectionManager.create_session, if_neg hge, Option.getD_some]
  rw [if_pos hdup]
  exact ⟨rfl, rfl⟩

/-- Witness for C8: a manager holding session `"s1"` (ceiling 50) rejects a
second creation with `session_id = "s1"` without any state change. -/
theorem cm_duplicate_rejected_witness :
    (({ max_connections := 50,
        active_sessions := [("s1", UserSession.mkDefault "s1" "c1" 7)],
        connection_to_session := [("c1", "s1")],
        websocket_to_connection := [(7, "c1")] } : ConnectionManager).create_session 8
          (some "s1") none "g1" "g2").1 =
      { max_connections := 50,
        active_sessions := [("s1", UserSession.mkDefault "s1" "c1" 7)],
        connection_to_session := [("c1", "s1")],
        websocket_to_connection := [(7, "c1")] } ∧
    (({ max_connections := 50,
        active_sessions := [("s1", UserSession.mkDefault "s1" "c1" 7)],
        connection_to_session := [("c1", "s1")],
        websocket_to_connection := [(7, "c1")] } : ConnectionManager).create_session 8
          (some "s1") none "g1" "g2").2 =
      Except.error "session id already exists" :=
  cm_duplicate_rejected _ 8 "s1" none "g1" "g2" (by decide) (by decide)

/-- C10: a session created by `create_session` starts with the dataclass
default `display_subtitles = False`, but after the `handle_client` init
configuration step for an init message omitting `display_subtitles`, the
session has `display_subtitles = True` (the handler's `.get(...)` default);
every directly constructed `UserSession` defaults it to `False`. -/
theorem init_display_subtitles_default (cm : ConnectionManager) (ws : Nat)
    (init_data : InitData) (g1 g2 : String) (cm2 : ConnectionManager)
    (session : UserSession)
    (hcreate : cm.create_session ws init_data.session_id none g1 g2 =
      (cm2, Except.ok session))
    (homit : init_data.display_subtitles = none) :
    session.display_subtitles = false ∧
    (applySessionConfig session init_data).display_subtitles = true ∧
    ∀ (sid cid : String) (w : Nat),
      (UserSession.mkDefault sid cid w).display_subtitles = false := by
  refine ⟨?_, ?_, fun sid cid w => rfl⟩
  · by_cases hge : cm.max_connections ≤ cm.active_sessions.length
    · simp only [ConnectionManager.create_session, if_pos hge, Prod.mk.injEq] at hcreate
      exact absurd hcreate.2 (by simp)
    · simp only [ConnectionManager.create_session, if_neg hge] at hcreate
      by_cases hdup : dictContains cm.active_sessions (init_data.session_id.getD g1) = true
      · rw [if_pos hdup, Prod.mk.injEq] at hcreate
        exact absurd hcreate.2 (by simp)
      · rw [if_neg hdup, Prod.mk.injEq] at hcreate
        obtain ⟨h1, h2⟩ := hcreate
        injection h2 with h2
        rw [← h2]
        rfl
  · simp [applySessionConfig, homit]

/-- Witness for C10: a concrete created session has `display_subtitles =
False` before and `True` after applying an init message that omits the flag. -/
theorem init_display_subtitles_default_witness :
    (UserSession.mkDefault "s1" "c1" 7).display_subtitles = false ∧
    (applySessionConfig (UserSession.mkDefault "s1" "c1" 7)
      { session_id := some "s1", language := none, translate_to := none,
        display_subtitles := none }).display_subtitles = true := by
  have h := init_display_subtitles_default (ConnectionManager.init 50) 7
    { session_id := some "s1", language := none, translate_to := none,
      display_subtitles := none } "g1" "c1" _ (UserSession.mkDefault "s1" "c1" 7) rfl rfl
  exact ⟨h.1, h.2.1⟩

end STT
